import Mathlib

/-!
Verification of the jpathpy package (JPath query engine over JSON-shaped data).

The definitions below are a shallow embedding of the Python sources:
* `jpathpy/__init__.py` — the `JSelection` navigation operators and `JPath` entry points;
* `jpathpy/parse.py`    — the grammar actions that compile JPath text to host code;
* `jpathpy/lex.py`      — the tokenizer;
* `jpathpy/exceptions.py` — the error family;
* `jpathpy/jpath_funcs.py` — the built-in function table.

Python values that can appear in a JSON-shaped tree are modelled by `JValue`
(floats are omitted: no examined behaviour involves them).  The default
iteration configuration of `JSelection.__init__` is modelled directly:
`iters_by_key = (dict,)`, `ex_iters_by_key = ()`, `iters_by_idx = (Iterable,)`,
`ex_iters_by_idx = (dict, str)`; hence key descent applies exactly to objects
and index descent exactly to arrays.
-/

/-- The tagged tree of JSON-shaped Python values.  `obj` keeps fields in
insertion order, as Python dicts do since 3.7. -/
inductive JValue where
  | null
  | bool (b : Bool)
  | int (n : Int)
  | str (s : String)
  | arr (elems : List JValue)
  | obj (fields : List (String × JValue))
deriving Repr

/-- Dict lookup: `select_from[key]` guarded by `key in select_from`
(first binding wins; Python dicts cannot hold duplicate keys). -/
def lookupField : List (String × JValue) → String → Option JValue
  | [], _ => none
  | (k, w) :: rest, key => if k = key then some w else lookupField rest key

/-- The closure `select` inside `JSelection._select` (`__init__.py` 240-284),
fixed to the default iteration configuration, together with the
`accum_selections` recursion (a fresh single-item selection per child).
The source recursion is not structurally decreasing (the `all and deep`
branch folds over the accumulator built so far), so a fuel parameter guards
it; fuel exhaustion returns the accumulator unchanged and is never reached
at the concrete inputs examined below. -/
def selectF (key : String) (deep all : Bool) : Nat → List JValue → JValue → List JValue
  | 0, acc, _ => acc
  | n + 1, acc, v =>
    match v with
    | .obj fields =>
      let acc1 := if all then acc ++ fields.map (fun kv => kv.2)
                  else acc ++ (lookupField fields key).toList
      if deep then
        let children := if all then acc1 else fields.map (fun kv => kv.2)
        children.foldl (fun a c => a ++ selectF key deep all n [] c) acc1
      else acc1
    | .arr elems => elems.foldl (fun a e => selectF key deep all n a e) acc
    | _ => acc

/-- `JSelection._select`: `reduce(select, self, ())` over the selection items.
`one(key, deep)` is `selectItems key deep false`, `all(deep)` is
`selectItems key deep true` (the key is unused when `all` holds; the
`TypeError` for a missing key is raised before this point). -/
def selectItems (key : String) (deep all : Bool) (fuel : Nat) (items : List JValue) : List JValue :=
  items.foldl (fun a v => selectF key deep all fuel a v) []

/-- Python tuple indexing as used by `JSelection.__getitem__` for an `int`
index: negative indices count from the end, out-of-range yields `IndexError`
(modelled as `none`; the callers below catch it). -/
def pyIndex (items : List JValue) (n : Int) : Option JValue :=
  if 0 ≤ n then items.get? n.toNat
  else if 0 ≤ n + items.length then items.get? (n + items.length).toNat else none

/-- The index arguments of `JSelection.i` / `JSelection.el` covered by the
claims: a single integer or a list of integers.  The slice branch of the
source is not modelled; every claim quantifies over these two forms. -/
inductive IndexArg where
  | int (n : Int)
  | list (ns : List Int)

/-- `JSelection.i` (`__init__.py` 397-455): pick positions out of the item
tuple itself, silently skipping every index that raises `IndexError`. -/
def iItems (items : List JValue) : IndexArg → List JValue
  | .int n =>
    match pyIndex items n with
    | some v => [v]
    | none => []
  | .list ns =>
    ns.foldl (fun acc n =>
      match pyIndex items n with
      | some v => acc ++ [v]
      | none => acc) []

/-- Per-item body of `JSelection.el`: an index-iterable, non-excluded item
(an array under the defaults) is splatted into a fresh selection and `i` is
applied to it; any other item contributes nothing. -/
def elElem (idx : IndexArg) (item : JValue) : List JValue :=
  match item with
  | .arr l => iItems l idx
  | _ => []

/-- `JSelection.el` (`__init__.py` 335-395): reduce the per-item bodies over
the current selection. -/
def elItems (items : List JValue) (idx : IndexArg) : List JValue :=
  items.foldl (fun acc item => acc ++ elElem idx item) []

/-- Per-item body of `JSelection.exp`: `tuple(item)` when the item is
index-iterable and not excluded (an array under the defaults), else the
item itself. -/
def expElem (v : JValue) : List JValue :=
  match v with
  | .arr l => l
  | _ => [v]

/-- `JSelection.exp` (`__init__.py` 457-486): expand each item one level. -/
def expItems (items : List JValue) : List JValue :=
  items.foldl (fun acc v => acc ++ expElem v) []

/-- The Python exception kinds reachable in the modelled code paths.
`jpath` covers the `JPathError` family of `exceptions.py`; the other
constructors are host exceptions (`TypeError`, `IndexError`,
`AttributeError`) carrying their `str` message. -/
inductive JPathKind where
  | baseErr
  | lexicalErr
  | syntaxErr
  | functionErr
deriving Repr, DecidableEq

/-- Exceptions. A `JPathError` stores the message and the optional
`lineno`/`pos` pair given to `JPathError.__init__`. -/
inductive PyExc where
  | jpath (k : JPathKind) (msg : String) (lineno pos : Option Nat)
  | typeErr (msg : String)
  | indexErr (msg : String)
  | attributeErr (msg : String)
deriving Repr, DecidableEq

/-- `JPathError.__init__` (`exceptions.py` 11-30): the user-visible message
is `"<message> at line <L> (position: <C>)"` exactly when both `lineno` and
`pos` were supplied, else just the message. -/
def jpathErrMsg (message : String) (lineno pos : Option Nat) : String :=
  match lineno, pos with
  | some l, some p =>
      message ++ " at line " ++ toString l ++ " (position: " ++ toString p ++ ")"
  | _, _ => message

/-- `str(exception)`: a `JPathError` prints its formatted `errmsg`; the host
exceptions print their message. -/
def strOfExc : PyExc → String
  | .jpath _ m l p => jpathErrMsg m l p
  | .typeErr m => m
  | .indexErr m => m
  | .attributeErr m => m

/-- A Python value as seen by truthiness tests in the modelled code: either
a plain JSON value or a `JSelection` (whose truth comes from
`JSelection.__len__`). -/
inductive PyVal where
  | jval (v : JValue)
  | sel (items : List JValue)
deriving Repr

/-- Python truthiness of a JSON-shaped value. -/
def pyTruthyJ : JValue → Bool
  | .null => false
  | .bool b => b
  | .int n => decide (n ≠ 0)
  | .str s => decide (s ≠ "")
  | .arr l => !l.isEmpty
  | .obj f => !f.isEmpty

/-- Python truthiness, with selections going through `JSelection.__len__`
(`__init__.py` 200-204): a selection is truthy iff its item tuple is
non-empty. -/
def pyTruthy : PyVal → Bool
  | .jval v => pyTruthyJ v
  | .sel items => decide (items.length ≠ 0)

/-- `JSelection.filter` (`__init__.py` 488-527).  The wrapper `_` calls the
predicate on `(idx, JSelection(item), root)` and returns `None` — falsy —
when the predicate raises any `Exception`; the built-in `filter` then keeps
the items whose wrapped result is truthy, and `map(lambda x: x[1], ...)`
drops the enumeration indices.  The predicate here receives the index and
the one-item list wrapped into the per-item current selection; the root
argument, constant across the call, is absorbed into `p`. -/
def filterItems (items : List JValue) (p : Nat → List JValue → Except PyExc PyVal) :
    List JValue :=
  ((items.enum).filter (fun x =>
      match p x.1 [x.2] with
      | .ok r => pyTruthy r
      | .error _ => false)).map (fun x => x.2)

/-- `JSelection.call4each` (`__init__.py` 651-688) at item level: apply the
function to each item, skipping the items where it raises. -/
def call4eachItems (items : List JValue) (f : JValue → Except PyExc JValue) : List JValue :=
  items.foldl (fun acc v =>
    match f v with
    | .ok r => acc ++ [r]
    | .error _ => acc) []

/-- Identity of a selection object: its reference id together with the
length of its (immutable) item tuple, which is what Python truthiness of
the object observes. -/
structure SelRef where
  id : Nat
  len : Nat
deriving Repr, DecidableEq

/-- A value passed as the `root` keyword of `JSelection.__init__`: either a
selection reference or some other Python value. -/
inductive PyArg where
  | sel (id len : Nat)
  | other (v : JValue)

/-- Truthiness of a root argument (`root or self`): a selection is truthy
iff non-empty, anything else by `pyTruthyJ`. -/
def pyArgTruthy : PyArg → Bool
  | .sel _ len => decide (len ≠ 0)
  | .other _v => pyTruthyJ _v

/-- The root-binding step of `JSelection.__init__` (`__init__.py` 141-152):
`self.meta["root"] = root or self`, then `TypeError` unless the bound root
is a `JSelection` instance.  `selfRef` is the object being constructed,
`root` the keyword argument (`none` models the default `None`). -/
def initRoot (selfRef : SelRef) (root : Option PyArg) : Except PyExc SelRef :=
  let r : PyArg :=
    match root with
    | none => .sel selfRef.id selfRef.len
    | some a => if pyArgTruthy a then a else .sel selfRef.id selfRef.len
  match r with
  | .sel i l => .ok ⟨i, l⟩
  | .other _ => .error (.typeErr "root must be an instance of <class 'jpathpy.JSelection'>")

/-- A selection with its identity metadata: object id, the root reference
stored in `meta["root"]` (id and length of that root selection), and the
item tuple. -/
structure JSelection where
  id : Nat
  rootId : Nat
  rootLen : Nat
  items : List JValue
deriving Repr

/-- `self.__class__(*newItems, **self.meta)`: every navigation operator
builds its result this way, passing the stored root object to `__init__`,
whose `root or self` keeps it only while that root selection is truthy
(non-empty).  `freshId` is the id of the newly allocated object. -/
def derive (S : JSelection) (freshId : Nat) (newItems : List JValue) : JSelection :=
  match initRoot ⟨freshId, newItems.length⟩ (some (.sel S.rootId S.rootLen)) with
  | .ok r => ⟨freshId, r.id, r.len, newItems⟩
  | .error _ => ⟨freshId, 0, 0, newItems⟩

/-- `JSelection.one`. -/
def JSelection.one (S : JSelection) (freshId : Nat) (key : String) (deep : Bool)
    (fuel : Nat) : JSelection :=
  derive S freshId (selectItems key deep false fuel S.items)

/-- `JSelection.all`. -/
def JSelection.all (S : JSelection) (freshId : Nat) (deep : Bool) (fuel : Nat) : JSelection :=
  derive S freshId (selectItems "" deep true fuel S.items)

/-- `JSelection.el`. -/
def JSelection.el (S : JSelection) (freshId : Nat) (idx : IndexArg) : JSelection :=
  derive S freshId (elItems S.items idx)

/-- `JSelection.i`. -/
def JSelection.i (S : JSelection) (freshId : Nat) (idx : IndexArg) : JSelection :=
  derive S freshId (iItems S.items idx)

/-- `JSelection.exp`. -/
def JSelection.exp (S : JSelection) (freshId : Nat) : JSelection :=
  derive S freshId (expItems S.items)

/-- `JSelection.filter`. -/
def JSelection.filter (S : JSelection) (freshId : Nat)
    (p : Nat → List JValue → Except PyExc PyVal) : JSelection :=
  derive S freshId (filterItems S.items p)

/-- `JSelection.call4each`. -/
def JSelection.call4each (S : JSelection) (freshId : Nat)
    (f : JValue → Except PyExc JValue) : JSelection :=
  derive S freshId (call4eachItems S.items f)

/-- `JSelection.__add__` (the `|` union of JPath): concatenate the item
tuples, metadata inherited from the left operand. -/
def JSelection.union (S : JSelection) (freshId : Nat) (value : List JValue) : JSelection :=
  derive S freshId (S.items ++ value)

/-! ### Grammar actions of `parse.py`

The source parser compiles JPath text to a Python source string which is
then evaluated (`JPath._parse_and_exec`, `__init__.py` 855-905).  The
grammar actions relevant to the claims are modelled as the string
transformers they are in the source. -/

/-- `p_jpath_root` (`parse.py` 128-137): `$` compiles to `root`, `@` to
`cur`. -/
def p_jpath_root (tok : String) : String :=
  if tok = "$" then "root" else "cur"

/-- `p_jpath_selection` (`parse.py` 144-152): key or `*` selection, simple
(`.`) or deep (`..`). -/
def p_jpath_selection (p1 p2 p3 : String) : String :=
  let func := if p3 = "*" then "all" else "one"
  let key := if p3 = "*" then "" else "\"" ++ p3 ++ "\""
  let delim := if p3 = "*" then "" else ", "
  let deep := if p2 = "." then "False" else "True"
  p1 ++ "." ++ func ++ "(" ++ key ++ delim ++ "deep=" ++ deep ++ ")"

/-- `p_jpath_filterarray` (`parse.py` 154-159) for a single integer index:
`.[i]` compiles to `.el(i)` (`%r` of a Python int is its decimal form). -/
def p_jpath_filterarray (p1 : String) (idx : Int) : String :=
  p1 ++ ".el(" ++ toString idx ++ ")"

/-- `p_expression_comp` (`parse.py` 248-279) when the left operand is a
`jpath`: the jpath gets `.val()` appended and `=` is rewritten to `==`. -/
def p_expression_comp_jpath_left (p1 p2 p3 : String) : String :=
  p1 ++ ".val()" ++ " " ++ (if p2 = "=" then "==" else p2) ++ " " ++ p3

/-- The Python source produced by `parse(r'$.."a".[1] = 2', "expressionstr")`,
assembled by the grammar actions along the (unique) derivation of that
input. -/
def compiledFilterC1 : String :=
  p_expression_comp_jpath_left
    (p_jpath_filterarray (p_jpath_selection (p_jpath_root "$") ".." "a") 1) "=" "2"

/-- The attributes defined on the `JSelection` class
(`__init__.py` 92-738) — the names `eval` can resolve on a selection
object.  There is no `val` among them. -/
def jselectionAttrNames : List String :=
  ["__init__", "__getitem__", "__add__", "__mul__", "__rmul__", "__iter__", "__next__",
   "__len__", "__str__", "__call__", "_select", "one", "all", "el", "i", "exp", "filter",
   "call4item", "call4items", "call4self", "call4each", "byjpath", "setroot", "tuple",
   "print"]

/-! ### Function table (`jpath_funcs.py`) and function-call errors -/

/-- The public methods of `jpathpy.jpath_funcs.JPathFunctions` — the names
for which `hasattr(jpath_funcs, name)` holds and the attribute is callable
(every method of the class is callable, so the source's conjunction
collapses to membership; `FUNCNAME` cannot start with an underscore, so the
private helpers are unreachable). -/
def jpathFuncNames : List String :=
  ["toint", "toflt", "tostr", "get", "len", "isnum", "isint", "isflt", "isbool",
   "isstr", "isnull", "isarr", "isobj", "rnd", "slice", "replace", "isdigit",
   "isalpha", "isalnum", "islower", "isupper", "isspace", "istitle", "lower",
   "upper", "startswith", "endswith", "capitalize", "ltrim", "rtrim", "trim",
   "title", "instr", "normalize", "count", "all", "any", "has", "no", "inval",
   "initems", "concat"]

/-- `p_function` (`parse.py` 293-299): a name that is not a (callable)
attribute of the function table aborts parsing with a
`JPathFunctionError`. -/
def p_function_check (name : String) : Except PyExc Unit :=
  if name ∈ jpathFuncNames then .ok ()
  else .error (.jpath .functionErr
    ("Unknown JPath function ``" ++ name ++ "`` or it is not callable") none none)

/-- The Python type name of a value, as it appears in host error
messages. -/
def pyTypeName : JValue → String
  | .null => "NoneType"
  | .bool _ => "bool"
  | .int _ => "int"
  | .str _ => "str"
  | .arr _ => "list"
  | .obj _ => "dict"

/-- `JPathFunctionsWrapper._getvalue` (`jpath_funcs.py` 53-65): a selection
argument is unwrapped to its first item (`IndexError` from
`JSelection.__getitem__` when empty), any other value passes through. -/
def getvalue : PyVal → Except PyExc JValue
  | .sel items =>
    match items.head? with
    | some v => .ok v
    | none => .error (.indexErr "index 0 out of range")
  | .jval v => .ok v

/-- `JPathFunctions.startswith` (`jpath_funcs.py` 479-494):
`selection[0].startswith(self._getvalue(template))`.  A non-string first
item has no `startswith` attribute; a non-string template raises CPython's
`TypeError` for `str.startswith`. -/
def jpathFuncStartswith (selection : List JValue) (template : PyVal) :
    Except PyExc PyVal :=
  match selection.head? with
  | none => .error (.indexErr "index 0 out of range")
  | some first =>
    match getvalue template with
    | .error e => .error e
    | .ok t =>
      match first with
      | .str s =>
        match t with
        | .str pre => .ok (.jval (.bool (pre.data.isPrefixOf s.data)))
        | _ => .error (.typeErr
            ("startswith first arg must be str or a tuple of str, not " ++ pyTypeName t))
      | v => .error (.attributeErr
          ("'" ++ pyTypeName v ++ "' object has no attribute 'startswith'"))

/-- `JPath.exec_jpath_func` (`__init__.py` 1016-1070): exceptions of the
`JPathError` family propagate unchanged; any other exception is re-raised
as `JPathFunctionError(str(ex))` (message only, no position). -/
def execJpathFuncWrap : Except PyExc PyVal → Except PyExc PyVal
  | .error (.jpath k m l p) => .error (.jpath k m l p)
  | .error e => .error (.jpath .functionErr (strOfExc e) none none)
  | .ok a => .ok a

/-! ### Lexer (`lex.py`)

PLY builds one master pattern: the function-defined tokens in their order
of definition (`t_AND`, `t_OR`, `t_FLOAT`, `t_INT`, `t_TRUE`, `t_FALSE`,
`t_NULL`, `t_STRING`, `t_newline`), then the string-defined tokens sorted
by decreasing pattern length (`t_FUNCNAME`, `t_DEEPSELECTOR`, `t_LE`,
`t_GE`, then the two-character-pattern and one-character-pattern tokens).
Characters of `t_ignore` (space, tab) are skipped; newlines bump the line
counter; an unmatched character reaches `t_error`. -/

/-- The token kinds of `lex.py`, with the value transformations the token
functions perform (numbers parsed, string literals stripped of their
quotes). -/
inductive Tok where
  | AND | OR
  | FLOATTOK (s : String)
  | INTTOK (n : Nat)
  | TRUETOK | FALSETOK | NULLTOK
  | STRINGTOK (s : String)
  | FUNCNAME (s : String)
  | DEEPSELECTOR | LE | GE | NE
  | ROOT | SIMPLESELECTOR | LPAREN | RPAREN
  | LSQUAREPAREN | RSQUAREPAREN | MINUS | PLUS
  | MULT | DIV | LT | GT | UNION
  | DELIMPARAMS | SLICE | MOD | EQ | AT
deriving Repr, DecidableEq

/-- Case-insensitive keyword match: `pat` is the lowercase pattern; returns
the number of consumed characters. -/
def matchCI : List Char → List Char → Option Nat
  | [], _ => some 0
  | _ :: _, [] => none
  | w :: ws, c :: cs =>
    if c.toLower = w then (matchCI ws cs).map (fun n => n + 1) else none

/-- Literal pattern match. -/
def matchLit (lit : List Char) (cs : List Char) : Option Nat :=
  if lit.isPrefixOf cs then some lit.length else none

/-- Numeric value of a digit run, as `int()` computes it. -/
def natOfDigits (ds : List Char) : Nat :=
  ds.foldl (fun a c => 10 * a + (c.toNat - 48)) 0

/-- `t_FLOAT`, pattern `(?:\d+)?\.\d+`: optional integer part, a dot, a
non-empty fraction. -/
def matchFloatTok (cs : List Char) : Option Nat :=
  let ds := cs.takeWhile Char.isDigit
  match cs.drop ds.length with
  | '.' :: r2 =>
    let ds2 := r2.takeWhile Char.isDigit
    if ds2.isEmpty then none else some (ds.length + 1 + ds2.length)
  | _ => none

/-- `t_INT`, pattern `\d+`. -/
def matchIntTok (cs : List Char) : Option Nat :=
  let ds := cs.takeWhile Char.isDigit
  if ds.isEmpty then none else some ds.length

/-- A plain (unescaped) character of a `t_STRING` literal:
` -!#-[]-￿`, i.e. the BMP from space up,
minus the quote and the backslash. -/
def plainStrChar (c : Char) : Bool :=
  decide (32 ≤ c.toNat) && decide (c.toNat ≤ 0xFFFF) && c != '"' && c != '\\'

/-- Uppercase-hex digit class `[0-9ABCDEF]` of the `\uXXXX` escape. -/
def hexUC (c : Char) : Bool :=
  c.isDigit || (decide ('A' ≤ c) && decide (c ≤ 'F'))

/-- The single-character escapes of `t_STRING`. -/
def escChar (c : Char) : Bool :=
  c = Char.ofNat 39 || c = '"' || c = '\\' || c = '/' ||
  c = 'b' || c = 'f' || c = 'n' || c = 'r' || c = 't'

/-- Length of a string-literal body including the closing quote, scanning
from just after the opening quote; `none` when the literal does not close
legally. -/
def strBodyLen : List Char → Option Nat
  | [] => none
  | '"' :: _ => some 1
  | '\\' :: rest =>
    match rest with
    | [] => none
    | e :: rest2 =>
      if e = 'u' then
        match rest2 with
        | a :: b :: c :: d :: r3 =>
          if hexUC a && hexUC b && hexUC c && hexUC d then
            (strBodyLen r3).map (fun n => n + 6)
          else none
        | _ => none
      else if escChar e then (strBodyLen rest2).map (fun n => n + 2)
      else none
  | c :: rest =>
    if plainStrChar c then (strBodyLen rest).map (fun n => n + 1) else none

/-- `t_STRING`: a quoted literal; the token value is the raw text between
the quotes (`t.value[1:-1]`, no unescaping). -/
def matchStringTok (cs : List Char) : Option (String × Nat) :=
  match cs with
  | '"' :: rest =>
    match strBodyLen rest with
    | some n => some (String.mk (rest.take (n - 1)), n + 1)
    | none => none
  | _ => none

/-- `t_FUNCNAME`, pattern `[a-zA-Z][a-zA-Z0-9_]*`. -/
def matchFuncnameTok (cs : List Char) : Option (String × Nat) :=
  match cs with
  | c :: rest =>
    if c.isAlpha then
      let tail := rest.takeWhile (fun d => d.isAlphanum || d = '_')
      some (String.mk (c :: tail), 1 + tail.length)
    else none
  | [] => none

/-- One attempt of the master pattern at the current position, trying the
sub-patterns in PLY's order. -/
def matchToken (cs : List Char) : Option (Tok × Nat) :=
  match matchCI ['a', 'n', 'd'] cs with
  | some n => some (.AND, n)
  | none =>
  match matchCI ['o', 'r'] cs with
  | some n => some (.OR, n)
  | none =>
  match matchFloatTok cs with
  | some n => some (.FLOATTOK (String.mk (cs.take n)), n)
  | none =>
  match matchIntTok cs with
  | some n => some (.INTTOK (natOfDigits (cs.take n)), n)
  | none =>
  match matchCI ['t', 'r', 'u', 'e'] cs with
  | some n => some (.TRUETOK, n)
  | none =>
  match matchCI ['f', 'a', 'l', 's', 'e'] cs with
  | some n => some (.FALSETOK, n)
  | none =>
  match matchCI ['n', 'u', 'l', 'l'] cs with
  | some n => some (.NULLTOK, n)
  | none =>
  match matchStringTok cs with
  | some (s, n) => some (.STRINGTOK s, n)
  | none =>
  match matchFuncnameTok cs with
  | some (s, n) => some (.FUNCNAME s, n)
  | none =>
  match matchLit ['.', '.'] cs with
  | some n => some (.DEEPSELECTOR, n)
  | none =>
  match matchLit ['<', '='] cs with
  | some n => some (.LE, n)
  | none =>
  match matchLit ['>', '='] cs with
  | some n => some (.GE, n)
  | none =>
  match matchLit ['!', '='] cs with
  | some n => some (.NE, n)
  | none =>
  match matchLit ['$'] cs with
  | some n => some (.ROOT, n)
  | none =>
  match matchLit ['.'] cs with
  | some n => some (.SIMPLESELECTOR, n)
  | none =>
  match matchLit ['('] cs with
  | some n => some (.LPAREN, n)
  | none =>
  match matchLit [')'] cs with
  | some n => some (.RPAREN, n)
  | none =>
  match matchLit ['['] cs with
  | some n => some (.LSQUAREPAREN, n)
  | none =>
  match matchLit [']'] cs with
  | some n => some (.RSQUAREPAREN, n)
  | none =>
  match matchLit ['-'] cs with
  | some n => some (.MINUS, n)
  | none =>
  match matchLit ['+'] cs with
  | some n => some (.PLUS, n)
  | none =>
  match matchLit ['*'] cs with
  | some n => some (.MULT, n)
  | none =>
  match matchLit ['/'] cs with
  | some n => some (.DIV, n)
  | none =>
  match matchLit ['<'] cs with
  | some n => some (.LT, n)
  | none =>
  match matchLit ['>'] cs with
  | some n => some (.GT, n)
  | none =>
  match matchLit ['|'] cs with
  | some n => some (.UNION, n)
  | none =>
  match matchLit [','] cs with
  | some n => some (.DELIMPARAMS, n)
  | none =>
  match matchLit [':'] cs with
  | some n => some (.SLICE, n)
  | none =>
  match matchLit ['%'] cs with
  | some n => some (.MOD, n)
  | none =>
  match matchLit ['='] cs with
  | some n => some (.EQ, n)
  | none =>
  match matchLit ['@'] cs with
  | some n => some (.AT, n)
  | none => none

/-- The lexing loop: skip `t_ignore` characters, count newlines
(`t_newline`), emit tokens, and reach `t_error` (`lex.py` 120-129) on an
unmatched character: a lone backslash reports `Unescaped char '\'`
(peeking at the next character — `IndexError` when there is none), any
other unmatched character reports `Invalid syntax`, always as a
`JPathLexicalError` carrying the current line and position. -/
def lexLoop : Nat → Nat → Nat → List Char → Except PyExc (List Tok)
  | 0, _, _, _ => .error (.indexErr "lexer fuel exhausted")
  | _ + 1, _, _, [] => .ok []
  | fuel + 1, lineno, pos, c :: cs =>
    if c = ' ' || c = '\t' then lexLoop fuel lineno (pos + 1) cs
    else if c = '\n' then
      let nls := (c :: cs).takeWhile (fun d => d = '\n')
      lexLoop fuel (lineno + nls.length) (pos + nls.length) ((c :: cs).drop nls.length)
    else
      match matchToken (c :: cs) with
      | some (t, n) =>
        match lexLoop fuel lineno (pos + n) ((c :: cs).drop n) with
        | .ok ts => .ok (t :: ts)
        | .error e => .error e
      | none =>
        if c = '\\' then
          match cs with
          | c2 :: _ =>
            let msg := if c2 ≠ '\\' then "Unescaped char '\\'" else "Invalid syntax"
            .error (.jpath .lexicalErr msg (some lineno) (some pos))
          | [] => .error (.indexErr "string index out of range")
        else .error (.jpath .lexicalErr "Invalid syntax" (some lineno) (some pos))

/-- Tokenize a JPath expression; lexing starts at line 1, position 0. -/
def jlex (s : String) : Except PyExc (List Tok) :=
  lexLoop (s.length + 1) 1 0 s.data

/-! ### Subvalue relation and concrete inputs -/

/-- `SubEq x t`: `x` is `t` itself or a value nested somewhere inside `t`.
The navigation operators only ever hand back such references into the input
tree — they never build modified values. -/
inductive SubEq : JValue → JValue → Prop where
  | refl (v : JValue) : SubEq v v
  | arrMem {x v : JValue} {l : List JValue} :
      v ∈ l → SubEq x v → SubEq x (.arr l)
  | objMem {x v : JValue} {f : List (String × JValue)} :
      v ∈ f.map (fun kv => kv.2) → SubEq x v → SubEq x (.obj f)

/-- The scenario input `{"a":[1,2,3],"b":"abc","c":{"d":false}}`. -/
def dC2 : JValue :=
  .obj [("a", .arr [.int 1, .int 2, .int 3]), ("b", .str "abc"),
        ("c", .obj [("d", .bool false)])]

/-- The scenario input with the four book authors. -/
def dBooks : JValue :=
  .obj [("books", .arr [
    .obj [("author", .str "Nigel Rees")],
    .obj [("author", .str "Evelyn Waugh")],
    .obj [("author", .str "Herman Melville")],
    .obj [("author", .str "J. R. R. Tolkien")]])]

/-- The scenario input `{"a":[1,2,3],"b":{"a":1}}`. -/
def dA1 : JValue :=
  .obj [("a", .arr [.int 1, .int 2, .int 3]), ("b", .obj [("a", .int 1)])]

/-- The scenario input `{"a":[1,2,3],"b":{"a":"abc"}}`. -/
def dFunc : JValue :=
  .obj [("a", .arr [.int 1, .int 2, .int 3]), ("b", .obj [("a", .str "abc")])]

/-- The item tuple `([1,2,3], 1)` obtained by `jselection(dA1).one("a", deep=True)`. -/
def dPair : List JValue := [.arr [.int 1, .int 2, .int 3], .int 1]

/-- The selection produced by `$."b"."a"` on `dFunc`. -/
def selBA : List JValue :=
  selectItems "a" false false 4 (selectItems "b" false false 4 [dFunc])

/-! ### Helper lemmas -/

/-- Transitivity of the subvalue relation. -/
theorem SubEq.trans {a b c : JValue} (h1 : SubEq a b) (h2 : SubEq b c) : SubEq a c := by
  induction h2 with
  | refl => exact h1
  | arrMem hm _ ih => exact SubEq.arrMem hm ih
  | objMem hm _ ih => exact SubEq.objMem hm ih

/-- A successful `lookupField` returns one of the field values. -/
theorem lookupField_mem_values :
    ∀ (f : List (String × JValue)) (key : String) (w : JValue),
      lookupField f key = some w → w ∈ f.map (fun kv => kv.2) := by
  intro f
  induction f with
  | nil => intro key w h; simp [lookupField] at h
  | cons kv t ih =>
    intro key w h
    rcases kv with ⟨k, v⟩
    by_cases hk : k = key
    · rw [lookupField, if_pos hk] at h
      injection h with h
      simp [h]
    · rw [lookupField, if_neg hk] at h
      exact List.mem_cons_of_mem _ (ih key w h)

/-- Membership in a fold that appends a per-element block. -/
theorem mem_foldl_append {α β : Type} (f : β → List α) :
    ∀ (l : List β) (acc : List α) (x : α),
      x ∈ l.foldl (fun a c => a ++ f c) acc → x ∈ acc ∨ ∃ c ∈ l, x ∈ f c := by
  intro l
  induction l with
  | nil => intro acc x h; exact Or.inl h
  | cons c t ih =>
    intro acc x h
    rcases ih (acc ++ f c) x h with h1 | ⟨d, hd, hx⟩
    · rcases List.mem_append.mp h1 with h2 | h2
      · exact Or.inl h2
      · exact Or.inr ⟨c, List.mem_cons_self c t, h2⟩
    · exact Or.inr ⟨d, List.mem_cons_of_mem c hd, hx⟩

/-- Membership in the fold of `select` over the elements of an array,
assuming the subvalue property at the given fuel. -/
theorem mem_foldl_selectF (key : String) (deep all : Bool) (n : Nat)
    (ih : ∀ (acc : List JValue) (v x : JValue),
        x ∈ selectF key deep all n acc v → (∃ a ∈ acc, SubEq x a) ∨ SubEq x v) :
    ∀ (l : List JValue) (acc : List JValue) (x : JValue),
      x ∈ l.foldl (fun a e => selectF key deep all n a e) acc →
      (∃ a ∈ acc, SubEq x a) ∨ ∃ e ∈ l, SubEq x e := by
  intro l
  induction l with
  | nil => intro acc x h; exact Or.inl ⟨x, h, SubEq.refl x⟩
  | cons e t tih =>
    intro acc x h
    rcases tih (selectF key deep all n acc e) x h with ⟨a, ha, hs⟩ | ⟨e2, he2, hs⟩
    · rcases ih acc e a ha with ⟨a2, ha2, hs2⟩ | hs2
      · exact Or.inl ⟨a2, ha2, hs.trans hs2⟩
      · exact Or.inr ⟨e, List.mem_cons_self e t, hs.trans hs2⟩
    · exact Or.inr ⟨e2, List.mem_cons_of_mem e he2, hs⟩

/-- Every value that `select` accumulates is either already in the
accumulator or a subvalue of the processed value. -/
theorem selectF_subvalue (key : String) (deep all : Bool) :
    ∀ (n : Nat) (acc : List JValue) (v : JValue) (x : JValue),
      x ∈ selectF key deep all n acc v →
      (∃ a ∈ acc, SubEq x a) ∨ SubEq x v := by
  intro n
  induction n with
  | zero =>
    intro acc v x hx
    exact Or.inl ⟨x, by simpa [selectF] using hx, SubEq.refl x⟩
  | succ n ih =>
    intro acc v x hx
    cases v with
    | null => exact Or.inl ⟨x, by simpa [selectF] using hx, SubEq.refl x⟩
    | bool b => exact Or.inl ⟨x, by simpa [selectF] using hx, SubEq.refl x⟩
    | int m => exact Or.inl ⟨x, by simpa [selectF] using hx, SubEq.refl x⟩
    | str s => exact Or.inl ⟨x, by simpa [selectF] using hx, SubEq.refl x⟩
    | arr elems =>
      have hx2 : x ∈ elems.foldl (fun a e => selectF key deep all n a e) acc := by
        simpa [selectF] using hx
      rcases mem_foldl_selectF key deep all n (fun acc v x => ih acc v x) elems acc x hx2 with
        ⟨a, ha, hs⟩ | ⟨e, he, hs⟩
      · exact Or.inl ⟨a, ha, hs⟩
      · exact Or.inr (SubEq.arrMem he hs)
    | obj fields =>
      have acc1mem : ∀ y : JValue,
          y ∈ (if all then acc ++ fields.map (fun kv => kv.2)
               else acc ++ (lookupField fields key).toList) →
          (∃ a ∈ acc, SubEq y a) ∨ SubEq y (.obj fields) := by
        intro y hy
        by_cases hall : all = true
        · rw [if_pos hall] at hy
          rcases List.mem_append.mp hy with h2 | h2
          · exact Or.inl ⟨y, h2, SubEq.refl y⟩
          · exact Or.inr (SubEq.objMem h2 (SubEq.refl y))
        · rw [if_neg hall] at hy
          rcases List.mem_append.mp hy with h2 | h2
          · exact Or.inl ⟨y, h2, SubEq.refl y⟩
          · cases hlk : lookupField fields key with
            | none => rw [hlk] at h2; simp [Option.toList] at h2
            | some w =>
              rw [hlk] at h2
              have hw : y = w := by simpa [Option.toList] using h2
              subst hw
              exact Or.inr (SubEq.objMem (lookupField_mem_values fields key y hlk)
                (SubEq.refl y))
      by_cases hdeep : deep = true
      · have hx2 : x ∈ ((if all then
              (if all then acc ++ fields.map (fun kv => kv.2)
               else acc ++ (lookupField fields key).toList)
            else fields.map (fun kv => kv.2)).foldl
              (fun a c => a ++ selectF key deep all n [] c)
              (if all then acc ++ fields.map (fun kv => kv.2)
               else acc ++ (lookupField fields key).toList)) := by
          simpa [selectF, hdeep] using hx
        rcases mem_foldl_append (fun c => selectF key deep all n [] c) _ _ x hx2 with
          h1 | ⟨c, hc, hxc⟩
        · exact acc1mem x h1
        · have hsub : SubEq x c := by
            rcases ih [] c x hxc with ⟨a, ha, _⟩ | hs
            · exact absurd ha (List.not_mem_nil a)
            · exact hs
          have hcsub : (∃ a ∈ acc, SubEq c a) ∨ SubEq c (.obj fields) := by
            by_cases hall : all = true
            · rw [if_pos hall] at hc
              exact acc1mem c hc
            · rw [if_neg hall] at hc
              exact Or.inr (SubEq.objMem hc (SubEq.refl c))
          rcases hcsub with ⟨a, ha, hs2⟩ | hs2
          · exact Or.inl ⟨a, ha, hsub.trans hs2⟩
          · exact Or.inr (hsub.trans hs2)
      · have hx2 : x ∈ (if all then acc ++ fields.map (fun kv => kv.2)
               else acc ++ (lookupField fields key).toList) := by
          simpa [selectF, hdeep] using hx
        exact acc1mem x hx2

/-- `i` on a list of indices accumulates exactly the in-range picks, in
index order, duplicates preserved. -/
theorem iItems_foldl_eq (items : List JValue) :
    ∀ (ns : List Int) (acc : List JValue),
      ns.foldl (fun acc n =>
        match pyIndex items n with
        | some v => acc ++ [v]
        | none => acc) acc
      = acc ++ ns.filterMap (pyIndex items) := by
  intro ns
  induction ns with
  | nil => intro acc; simp
  | cons n t ih =>
    intro acc
    cases h : pyIndex items n with
    | none => simp [List.foldl_cons, List.filterMap_cons, h, ih]
    | some v => simp [List.foldl_cons, List.filterMap_cons, h, ih]

/-- Filtering an enumeration and projecting the payload yields a sublist of
the underlying list. -/
theorem enumFrom_filter_map_snd_sublist (q : Nat × JValue → Bool) :
    ∀ (l : List JValue) (n : Nat),
      ((((l.enumFrom n).filter q).map (fun x => x.2))).Sublist l := by
  intro l
  induction l with
  | nil => intro n; simp
  | cons a t ih =>
    intro n
    by_cases h : q (n, a) = true
    · simpa [List.enumFrom, List.filter_cons, h] using List.Sublist.cons₂ a (ih (n + 1))
    · simpa [List.enumFrom, List.filter_cons, h] using List.Sublist.cons a (ih (n + 1))

/-- Filter-then-map against a single `filterMap`. -/
theorem filter_map_eq_filterMap {α β : Type} (q : α → Bool) (f : α → β) :
    ∀ l : List α,
      (l.filter q).map f = l.filterMap (fun a => if q a then some (f a) else none) := by
  intro l
  induction l with
  | nil => rfl
  | cons a t ih =>
    by_cases h : q a = true
    · simp [List.filter_cons, List.filterMap_cons, h, ih]
    · simp [List.filter_cons, List.filterMap_cons, h, ih]

/-- While the stored root selection is non-empty, `derive` keeps it. -/
theorem derive_root_eq (S : JSelection) (freshId : Nat) (items : List JValue)
    (h : S.rootLen ≠ 0) :
    (derive S freshId items).rootId = S.rootId ∧
    (derive S freshId items).rootLen = S.rootLen := by
  simp [derive, initRoot, pyArgTruthy, h]

/-! ### Claim theorems -/

/-- C1: the filter expression of the claim is right about the intended
value — `$.."a".[1]` on the selection of `dA1` selects exactly `2`, so the
comparison with `2` should hold — but the parser compiles the expression to
host code ending in `.val()`, and `val` is not among the attributes of the
`JSelection` class, so evaluating the generated code raises an
`AttributeError` instead of returning `True` as the claim (and the
docstring of `JPath.exec_jpath_filter`) states. -/
theorem c1_filter_compiles_to_missing_val :
    compiledFilterC1 = "root.one(\"a\", deep=True).el(1).val() == 2" ∧
    ¬ ("val" ∈ jselectionAttrNames) ∧
    elItems (selectItems "a" true false 6 [dA1]) (.int 1) = [JValue.int 2] :=
  ⟨rfl, by decide, rfl⟩

/-- C2 counterexample: on `{"a":[1,2,3],"b":"abc","c":{"d":false}}` with
keys inserted in that order, `$.*` does NOT return
`([1,2,3], {"d":false}, "abc")`: `all()` emits the values in key insertion
order, so `"abc"` comes second, not third. -/
theorem c2_star_order_counterexample :
    selectItems "" false true 5 [dC2] ≠
      [JValue.arr [.int 1, .int 2, .int 3], JValue.obj [("d", JValue.bool false)],
       JValue.str "abc"] := by
  have h : selectItems "" false true 5 [dC2]
      = [JValue.arr [.int 1, .int 2, .int 3], JValue.str "abc",
         JValue.obj [("d", JValue.bool false)]] := rfl
  rw [h]
  simp

/-- C2 amended: `$.*` returns `([1,2,3], "abc", {"d":false})` in key
insertion order, `$.*[*]` returns `(1,2,3,"abc",{"d":false})`, and under
the default configuration `exp()` expands array items one level and emits
string and object items unsplit, as themselves. -/
theorem c2_star_and_expand_amended :
    selectItems "" false true 5 [dC2]
      = [JValue.arr [.int 1, .int 2, .int 3], JValue.str "abc",
         JValue.obj [("d", JValue.bool false)]] ∧
    expItems (selectItems "" false true 5 [dC2])
      = [JValue.int 1, JValue.int 2, JValue.int 3, JValue.str "abc",
         JValue.obj [("d", JValue.bool false)]] ∧
    (∀ l : List JValue, expItems [JValue.arr l] = l) ∧
    (∀ s : String, expItems [JValue.str s] = [JValue.str s]) ∧
    (∀ f : List (String × JValue), expItems [JValue.obj f] = [JValue.obj f]) :=
  ⟨rfl, rfl, fun _ => rfl, fun _ => rfl, fun _ => rfl⟩

/-- C3: on the books document, the deep key query `$.."author"` returns the
four author strings in document order. -/
theorem c3_deep_author_selection :
    selectItems "author" true false 6 [dBooks]
      = [JValue.str "Nigel Rees", JValue.str "Evelyn Waugh",
         JValue.str "Herman Melville", JValue.str "J. R. R. Tolkien"] := rfl

/-- C4: `filter` never propagates a predicate error — the result is a
sublist of the source (each retained item in order), an item is retained
exactly when the predicate returns a truthy value and dropped when it
errors or returns a falsy one, and a `Selection` result is truthy iff it is
non-empty. -/
theorem c4_filter_swallows_and_retains
    (items : List JValue) (p : Nat → List JValue → Except PyExc PyVal) :
    (filterItems items p).Sublist items ∧
    filterItems items p = (items.enum).filterMap (fun x =>
      if (match p x.1 [x.2] with
          | .ok r => pyTruthy r
          | .error _ => false) then some x.2 else none) ∧
    (∀ l : List JValue, pyTruthy (.sel l) = !l.isEmpty) := by
  refine ⟨?_, ?_, ?_⟩
  · exact enumFrom_filter_map_snd_sublist _ items 0
  · exact filter_map_eq_filterMap _ _ _
  · intro l; cases l <;> simp [pyTruthy]

/-- C5: `i` and `el` are total on integer and list-of-integer arguments —
out-of-range indices are silently skipped, the list form preserves the
order of the supplied indices with duplicates kept — and on the selection
`([1,2,3], 1)` of the claim, `el([3,-1,2,1,0])` yields `(3,3,2,1)` and
`el(100)` and `i(100)` yield `()`. -/
theorem c5_index_safety :
    (∀ (items : List JValue) (ns : List Int),
        iItems items (.list ns) = ns.filterMap (pyIndex items)) ∧
    (∀ (items : List JValue) (n : Int),
        iItems items (.int n) = (pyIndex items n).toList) ∧
    elItems dPair (.list [3, -1, 2, 1, 0])
      = [JValue.int 3, JValue.int 3, JValue.int 2, JValue.int 1] ∧
    elItems dPair (.int 100) = [] ∧
    iItems dPair (.int 100) = [] := by
  refine ⟨?_, ?_, rfl, rfl, rfl⟩
  · intro items ns
    simpa using iItems_foldl_eq items ns []
  · intro items n
    cases h : pyIndex items n <;> simp [iItems, h]

/-- C6: calling a function whose name is not in the function table aborts
with a function error; `startswith` exists and on `$."b"."a"` of `dFunc`
returns `True` for template `"ab"` and a function error (wrapping CPython's
`TypeError` message) for template `1`; `exec_jpath_func` re-raises non-JPath
exceptions as function errors carrying the original message and passes
JPath-family errors through unchanged. -/
theorem c6_function_errors :
    p_function_check "a" = .error (.jpath .functionErr
        "Unknown JPath function ``a`` or it is not callable" none none) ∧
    p_function_check "startswith" = .ok () ∧
    execJpathFuncWrap (jpathFuncStartswith selBA (.jval (.str "ab")))
      = .ok (.jval (.bool true)) ∧
    execJpathFuncWrap (jpathFuncStartswith selBA (.jval (.int 1)))
      = .error (.jpath .functionErr
          "startswith first arg must be str or a tuple of str, not int" none none) ∧
    (∀ (k : JPathKind) (m : String) (l p : Option Nat),
        execJpathFuncWrap (.error (.jpath k m l p)) = .error (.jpath k m l p)) ∧
    (∀ m : String, execJpathFuncWrap (.error (.typeErr m))
        = .error (.jpath .functionErr m none none)) :=
  ⟨rfl, rfl, rfl, rfl, fun _ _ _ _ => rfl, fun _ => rfl⟩

/-- C7: lexing `#.."a"` aborts with a lexical error at line 1, position 0;
a JPath error built with both a line and a position formats its message as
`<message> at line <L> (position: <C>)`, and one built without a position
carries just the message. -/
theorem c7_lexical_error_and_format :
    jlex "#..\"a\"" = .error (.jpath .lexicalErr "Invalid syntax" (some 1) (some 0)) ∧
    jpathErrMsg "Invalid syntax" (some 1) (some 0)
      = "Invalid syntax at line 1 (position: 0)" ∧
    (∀ (m : String) (l p : Nat),
        jpathErrMsg m (some l) (some p)
          = m ++ " at line " ++ toString l ++ " (position: " ++ toString p ++ ")") ∧
    (∀ (m : String) (l : Option Nat), jpathErrMsg m l none = m) := by
  refine ⟨rfl, rfl, fun m l p => rfl, fun m l => ?_⟩
  cases l <;> rfl

/-- C8 counterexample: root stickiness fails when the root selection is
empty — for the empty selection that is its own root, `exp()` produces a
selection whose root is the fresh object itself, not the original root
(`root or self` in `__init__` discards a falsy — empty — root). -/
theorem c8_root_stickiness_counterexample :
    ((JSelection.mk 0 0 0 []).exp 1).rootId ≠ (JSelection.mk 0 0 0 []).rootId := by
  decide

/-- C8 amended: for every selection whose root selection is non-empty,
each of `one`, `all`, `el`, `i`, `exp`, `filter`, `call4each` and union
produces a selection whose root is identity-equal to the source's root. -/
theorem c8_root_stickiness_amended (S : JSelection) (h : S.rootLen ≠ 0) :
    ∀ (fid : Nat) (key : String) (deep : Bool) (fuel : Nat) (idx : IndexArg)
      (p : Nat → List JValue → Except PyExc PyVal)
      (f : JValue → Except PyExc JValue) (other : List JValue),
      (S.one fid key deep fuel).rootId = S.rootId ∧
      (S.all fid deep fuel).rootId = S.rootId ∧
      (S.el fid idx).rootId = S.rootId ∧
      (S.i fid idx).rootId = S.rootId ∧
      (S.exp fid).rootId = S.rootId ∧
      (S.filter fid p).rootId = S.rootId ∧
      (S.call4each fid f).rootId = S.rootId ∧
      (S.union fid other).rootId = S.rootId := by
  intro fid key deep fuel idx p f other
  have hd : ∀ (fi : Nat) (its : List JValue), (derive S fi its).rootId = S.rootId :=
    fun fi its => (derive_root_eq S fi its h).1
  exact ⟨hd _ _, hd _ _, hd _ _, hd _ _, hd _ _, hd _ _, hd _ _, hd _ _⟩

/-- C8 witness: the amended statement at a concrete selection with a
non-empty root. -/
theorem c8_root_stickiness_witness :
    ((JSelection.mk 2 7 1 []).one 9 "k" false 1).rootId = (JSelection.mk 2 7 1 []).rootId ∧
    ((JSelection.mk 2 7 1 []).all 9 false 1).rootId = (JSelection.mk 2 7 1 []).rootId ∧
    ((JSelection.mk 2 7 1 []).el 9 (.int 0)).rootId = (JSelection.mk 2 7 1 []).rootId ∧
    ((JSelection.mk 2 7 1 []).i 9 (.int 0)).rootId = (JSelection.mk 2 7 1 []).rootId ∧
    ((JSelection.mk 2 7 1 []).exp 9).rootId = (JSelection.mk 2 7 1 []).rootId ∧
    ((JSelection.mk 2 7 1 []).filter 9
        (fun _ _ => Except.ok (PyVal.jval JValue.null))).rootId
      = (JSelection.mk 2 7 1 []).rootId ∧
    ((JSelection.mk 2 7 1 []).call4each 9 Except.ok).rootId
      = (JSelection.mk 2 7 1 []).rootId ∧
    ((JSelection.mk 2 7 1 []).union 9 []).rootId = (JSelection.mk 2 7 1 []).rootId :=
  c8_root_stickiness_amended (JSelection.mk 2 7 1 []) (by decide) 9 "k" false 1 (.int 0)
    (fun _ _ => Except.ok (PyVal.jval JValue.null)) Except.ok []

/-- C9: evaluation is pure — running the same selection twice yields equal
results (the operators are functions of their inputs), and every item of a
result of `_select` or `exp` is a reference to a subvalue of some input
item: no operator builds modified values or touches the input tree. -/
theorem c9_purity :
    (∀ (key : String) (deep all : Bool) (fuel : Nat) (items : List JValue),
        selectItems key deep all fuel items = selectItems key deep all fuel items) ∧
    (∀ (key : String) (deep all : Bool) (fuel : Nat) (items : List JValue) (x : JValue),
        x ∈ selectItems key deep all fuel items → ∃ t ∈ items, SubEq x t) ∧
    (∀ (items : List JValue) (x : JValue),
        x ∈ expItems items → ∃ t ∈ items, SubEq x t) := by
  refine ⟨fun _ _ _ _ _ => rfl, ?_, ?_⟩
  · intro key deep all fuel items x hx
    rcases mem_foldl_selectF key deep all fuel (selectF_subvalue key deep all fuel)
        items [] x hx with ⟨a, ha, _⟩ | ⟨t, ht, hs⟩
    · exact absurd ha (List.not_mem_nil a)
    · exact ⟨t, ht, hs⟩
  · intro items x hx
    rcases mem_foldl_append expElem items [] x hx with h1 | ⟨v, hv, hxv⟩
    · exact absurd h1 (List.not_mem_nil x)
    · refine ⟨v, hv, ?_⟩
      cases v with
      | arr l => exact SubEq.arrMem (by simpa [expElem] using hxv) (SubEq.refl x)
      | null => simp [expElem] at hxv; subst hxv; exact SubEq.refl _
      | bool b => simp [expElem] at hxv; subst hxv; exact SubEq.refl _
      | int m => simp [expElem] at hxv; subst hxv; exact SubEq.refl _
      | str s => simp [expElem] at hxv; subst hxv; exact SubEq.refl _
      | obj f => simp [expElem] at hxv; subst hxv; exact SubEq.refl _

/-- C9 witness: the subvalue property applied at a concrete one-field
object. -/
theorem c9_purity_witness :
    SubEq (JValue.int 1) (JValue.obj [("a", JValue.int 1)]) := by
  have hmem : JValue.int 1 ∈ selectItems "a" false false 3 [JValue.obj [("a", JValue.int 1)]] := by
    show JValue.int 1 ∈ [JValue.int 1]
    simp
  obtain ⟨t, ht, hs⟩ :=
    c9_purity.2.1 "a" false false 3 [JValue.obj [("a", JValue.int 1)]] (JValue.int 1) hmem
  have hte := List.mem_singleton.mp ht
  subst hte
  exact hs

/-- C10 counterexample: constructing with the falsy non-selection root `0`
does NOT raise a `TypeError` — `root or self` replaces any falsy root by
`self` before the `isinstance` check, so construction succeeds with the new
selection as its own root. -/
theorem c10_root_arg_counterexample :
    initRoot ⟨0, 0⟩ (some (.other (.int 0))) = Except.ok (⟨0, 0⟩ : SelRef) := rfl

/-- C10 amended: without a root argument the selection becomes its own
root; a truthy root argument that is not a selection raises `TypeError`; a
falsy root argument (of any kind, including an empty selection) is treated
as unsupplied, the selection again becoming its own root; a non-empty
selection root is stored as given.  Hence every successfully constructed
selection's root is a selection. -/
theorem c10_init_root_amended :
    (∀ s : SelRef, initRoot s none = .ok s) ∧
    (∀ (s : SelRef) (v : JValue), pyTruthyJ v = true →
        initRoot s (some (.other v))
          = .error (.typeErr "root must be an instance of <class 'jpathpy.JSelection'>")) ∧
    (∀ (s : SelRef) (v : JValue), pyTruthyJ v = false →
        initRoot s (some (.other v)) = .ok s) ∧
    (∀ (s : SelRef) (i l : Nat), l ≠ 0 →
        initRoot s (some (.sel i l)) = .ok ⟨i, l⟩) ∧
    (∀ (s : SelRef) (i : Nat), initRoot s (some (.sel i 0)) = .ok s) := by
  refine ⟨fun s => rfl, ?_, ?_, ?_, fun s i => rfl⟩
  · intro s v hv
    simp [initRoot, pyArgTruthy, hv]
  · intro s v hv
    simp [initRoot, pyArgTruthy, hv]
  · intro s i l hl
    simp [initRoot, pyArgTruthy, hl]

/-- C10 witness: the amended rules applied at concrete root arguments. -/
theorem c10_init_root_witness :
    initRoot ⟨5, 2⟩ (some (.other (.int 3)))
      = .error (.typeErr "root must be an instance of <class 'jpathpy.JSelection'>") ∧
    initRoot ⟨5, 2⟩ (some (.other (.str ""))) = .ok ⟨5, 2⟩ ∧
    initRoot ⟨5, 2⟩ (some (.sel 9 4)) = .ok ⟨9, 4⟩ :=
  ⟨c10_init_root_amended.2.1 ⟨5, 2⟩ (.int 3) rfl,
   c10_init_root_amended.2.2.1 ⟨5, 2⟩ (.str "") rfl,
   c10_init_root_amended.2.2.2.1 ⟨5, 2⟩ 9 4 (by decide)⟩
